import Mathlib

/-!
Verification of the session & state-reconciliation layer of the HR-Policy
client application (`App.tsx`, `types.ts`, `services/geminiService.ts`,
`components/ChatTab.tsx`).

The embedding is shallow:
* JavaScript runtime values reaching the chat-response handler are modelled
  by the inductive `JsonVal` (strings, numbers as integers, booleans, null,
  objects as ordered field lists, arrays); an absent (`undefined`) value is
  `Option.none`.
* Asynchronous remote calls are modelled by an explicit outcome parameter
  (`Except`): the function describes the state once the call has settled.
  Where the order of externally visible effects matters, a companion
  `...Trace` definition lists those effects in the order the source
  performs them.
* `Date` values are represented by their ISO serialization (a `String`):
  no date arithmetic occurs anywhere in the source, and JSON caching
  round-trips a date through exactly that serialization.
* The browser `localStorage` entry under the key `uploadedPolicies` (the
  Persistent Mirror) is modelled by `Option MirrorBlob`: `none` is an
  absent key, `MirrorBlob.policies l` is the text `JSON.stringify l`, and
  `MirrorBlob.corrupt` is any text that does not parse back as a policy
  array.
-/

/-- Model of a JavaScript/JSON runtime value as it reaches the
chat-response handling code. Numbers are modelled as integers (no claim
involves fractional response payloads). -/
inductive JsonVal where
  | str (s : String)
  | num (n : Int)
  | bool (b : Bool)
  | null
  | obj (fields : List (String × JsonVal))
  | arr (elems : List JsonVal)

/-- JavaScript truthiness of a defined value: empty string, zero, `false`
and `null` are falsy; every object and array is truthy. -/
def jsTruthy : JsonVal → Bool
  | .str s => s != ""
  | .num n => n != 0
  | .bool b => b
  | .null => false
  | .obj _ => true
  | .arr _ => true

/-- Property access `v.k`: yields the field's value on an object that has
the field, `undefined` (`none`) otherwise (arrays and primitives have none
of the probed properties). -/
def jsGet : JsonVal → String → Option JsonVal
  | .obj fields, k => fields.lookup k
  | _, _ => none

/-- JavaScript `a || b` where `a` may be `undefined`: yields `a` when `a`
is defined and truthy, otherwise `b`. -/
def jsOr (a : Option JsonVal) (b : JsonVal) : JsonVal :=
  match a with
  | some v => if jsTruthy v then v else b
  | none => b

/-- JSON string escaping (the two escapes that can occur in the values
this development evaluates). -/
def jsonEscapeChar (c : Char) : String :=
  if c = '"' then "\\\"" else if c = '\\' then "\\\\" else String.singleton c

/-- Escape every character of a string for JSON output. -/
def jsonEscape (s : String) : String :=
  String.join (s.data.map jsonEscapeChar)

mutual

/-- Model of `JSON.stringify` on defined values. -/
def stringifyJson : JsonVal → String
  | .str s => "\"" ++ jsonEscape s ++ "\""
  | .num n => toString n
  | .bool b => if b then "true" else "false"
  | .null => "null"
  | .obj fields => "\x7b" ++ stringifyFields fields ++ "\x7d"
  | .arr elems => "[" ++ stringifyElems elems ++ "]"

/-- Serialize the field list of a JSON object, comma separated. -/
def stringifyFields : List (String × JsonVal) → String
  | [] => ""
  | [kv] => "\"" ++ jsonEscape kv.1 ++ "\":" ++ stringifyJson kv.2
  | kv :: rest =>
      "\"" ++ jsonEscape kv.1 ++ "\":" ++ stringifyJson kv.2 ++ "," ++
        stringifyFields rest

/-- Serialize the element list of a JSON array, comma separated. -/
def stringifyElems : List JsonVal → String
  | [] => ""
  | [v] => stringifyJson v
  | v :: rest => stringifyJson v ++ "," ++ stringifyElems rest

end

/-- The Response Normalizer: the value assigned to `responseText` in
`handleSendMessage` (App.tsx lines 121-131), as a function of
`response.response` (`none` models an absent field). Source:

  if (typeof response.response === 'string') responseText = response.response;
  else if (response.response)
    responseText = obj.text || obj.output || obj.answer || JSON.stringify(obj);
  else responseText = 'No response received.'; -/
def normalizeResponse : Option JsonVal → JsonVal
  | none => .str "No response received."
  | some v =>
    match v with
    | .str s => .str s
    | _ =>
      if jsTruthy v then
        jsOr (jsGet v "text")
          (jsOr (jsGet v "output")
            (jsOr (jsGet v "answer") (.str (stringifyJson v))))
      else .str "No response received."

/-- An uploaded-document record (`types.ts` interface `PolicyDocument`).
The `uploadedAt` date is represented by its ISO serialization. -/
structure PolicyDocument where
  name : String
  type : String
  pages : Int
  uploadedAt : String
  size : Rat
deriving DecidableEq, Repr

/-- A record of the Gateway's `GET /policies` payload
(`{policies: [{name, type, pages, uploaded_at, size}]}`). -/
structure ServerPolicy where
  name : String
  type : String
  pages : Int
  uploaded_at : String
  size : Rat
deriving DecidableEq, Repr

/-- The mapping applied to each server record in `loadPolicies` and
`refreshPolicies` (App.tsx lines 27-33 and 67-73): field renaming plus
`new Date(policy.uploaded_at)`, which under the ISO-string representation
of dates keeps the serialized timestamp. -/
def mapServerPolicy (p : ServerPolicy) : PolicyDocument :=
  { name := p.name, type := p.type, pages := p.pages,
    uploadedAt := p.uploaded_at, size := p.size }

/-- Message role (`types.ts`: `role: 'user' | 'assistant'`). -/
inductive Role where
  | user
  | assistant
deriving DecidableEq, Repr

/-- One chat turn (`types.ts` interface `ChatMessage`). The content is a
`JsonVal` because the normalizer can assign a non-string runtime value
when a probed field holds a truthy non-string; citations never occur in
the frontend paths modelled here. -/
structure ChatMessage where
  role : Role
  content : JsonVal

/-- The fixed assistant greeting seeding every fresh conversation
(App.tsx lines 12-17 and 157-162). -/
def greeting : ChatMessage :=
  { role := .assistant,
    content := .str "Hello! I\x27m your Company Policy Assistant. How can I help you today?" }

/-- The contents of the `localStorage` key `uploadedPolicies`, modelled by
its parse: `policies l` stands for the text `JSON.stringify l` (which
parses back to `l`, dates re-entering through `new Date`), `corrupt` for
any text on which `JSON.parse(...).map(...)` throws. -/
inductive MirrorBlob where
  | policies (l : List PolicyDocument)
  | corrupt
deriving DecidableEq, Repr

/-- The state owned by the `App` component: the two `useState` collections,
the session id, the loading flag, the webhook-route toggle, and the
Persistent Mirror entry (the `localStorage` key `uploadedPolicies`,
`none` when absent). -/
structure AppState where
  uploadedPolicies : List PolicyDocument
  chatHistory : List ChatMessage
  sessionId : String
  isLoading : Bool
  useWebhook : Bool
  mirror : Option MirrorBlob

/-- State update `setUploadedPolicies l` together with the persistence
`useEffect` (App.tsx lines 59-62) that rewrites the Persistent Mirror with
`JSON.stringify` of the new collection after every change. -/
def setPoliciesAndMirror (st : AppState) (l : List PolicyDocument) : AppState :=
  { st with uploadedPolicies := l, mirror := some (.policies l) }

/-- Session-id generation (App.tsx lines 56 and 156):
`session_${Date.now()}_${Math.random().toString(36).substring(2, 9)}` with
the millisecond clock reading `t` and the rendered entropy substring `r`. -/
def genSessionId (t : Nat) (r : String) : String :=
  "session_" ++ toString t ++ "_" ++ r

/-- The component's initial state at mount: empty registry, greeting-only
history, empty session id, both flags off; the Mirror holds whatever a
previous visit left in `localStorage`. -/
def initialState (mirror0 : Option MirrorBlob) : AppState :=
  { uploadedPolicies := [], chatHistory := [greeting], sessionId := "",
    isLoading := false, useWebhook := false, mirror := mirror0 }

/-- The settled effect of `loadPolicies` (App.tsx lines 24-51) given the
outcome of `getPolicies()`: on success replace the collection with the
mapped server list; on any failure (network error, non-2xx, malformed
JSON — all of which throw before or at the `response.policies.map`) read
the Mirror: absent or unparsable leaves the state unchanged, a cached
policy array replaces the collection with its re-parsed records. Every
collection change also fires the persistence effect. -/
def loadPolicies (st : AppState) (fetch : Except Unit (List ServerPolicy)) :
    AppState :=
  match fetch with
  | .ok ps => setPoliciesAndMirror st (ps.map mapServerPolicy)
  | .error _ =>
    match st.mirror with
    | none => st
    | some .corrupt => st
    | some (.policies l) => setPoliciesAndMirror st l

/-- The settled effect of `refreshPolicies` (App.tsx lines 64-78): same
fetch-and-replace as `loadPolicies` but with no fallback — a failure is
only logged and the state is unchanged. -/
def refreshPolicies (st : AppState) (fetch : Except Unit (List ServerPolicy)) :
    AppState :=
  match fetch with
  | .ok ps => setPoliciesAndMirror st (ps.map mapServerPolicy)
  | .error _ => st

/-- The synchronous part of `handleUpload` (App.tsx lines 80-89): prepend
the optimistic record to the collection (the delayed `refreshPolicies` it
schedules is modelled as a separate `refreshPolicies` step). -/
def handleUpload (st : AppState) (policy : PolicyDocument) : AppState :=
  setPoliciesAndMirror st (policy :: st.uploadedPolicies)

/-- The settled effect of `handleDeletePolicy` (App.tsx lines 91-100):
the `deletePolicyAPI` call is awaited first; whether it resolves (`try`
branch) or rejects (`catch` branch), the collection is then filtered to
drop every record with the deleted name. -/
def handleDeletePolicy (st : AppState) (name : String)
    (outcome : Except Unit Unit) : AppState :=
  match outcome with
  | .ok _ =>
      setPoliciesAndMirror st
        (st.uploadedPolicies.filter (fun p => p.name != name))
  | .error _ =>
      setPoliciesAndMirror st
        (st.uploadedPolicies.filter (fun p => p.name != name))

/-- The settled effect of `clearAllPolicies` (App.tsx lines 165-177): the
`clearAllPoliciesAPI` call is awaited first; whether it resolves or
rejects, the collection is then set to `[]` and
`localStorage.removeItem('uploadedPolicies')` runs — after which the
persistence effect fires for the collection change and rewrites the key
with `JSON.stringify([])`, so the Mirror ends holding the serialized empty
list. -/
def clearAllPolicies (st : AppState) (outcome : Except Unit Unit) : AppState :=
  match outcome with
  | .ok _ => { st with uploadedPolicies := [], mirror := some (.policies []) }
  | .error _ => { st with uploadedPolicies := [], mirror := some (.policies []) }

/-- The `clearChat` handler (App.tsx lines 154-163): regenerate the session
id from the clock reading `t` and entropy `r` drawn at the call, and reset
the history to the greeting alone. -/
def clearChat (st : AppState) (t : Nat) (r : String) : AppState :=
  { st with sessionId := genSessionId t r, chatHistory := [greeting] }

/-- Outcome of a dispatched chat call: `ok` carries the parsed body's
`response` field (`none` when the field is absent), `error` carries the
thrown failure's `message` (`none` for a non-`Error` throw). -/
abbrev ChatOutcome : Type := Except (Option String) (Option JsonVal)

/-- The synchronous prefix of `handleSendMessage` (App.tsx lines 102-111):
refused outright when the session id is empty (`if (!sessionId) return`),
otherwise exactly one `user` message is appended and the loading flag is
set before the Gateway call is dispatched. -/
def handleSendStart (st : AppState) (message : String) : AppState :=
  if st.sessionId = "" then st
  else
    { st with
        chatHistory := st.chatHistory ++ [{ role := .user, content := .str message }],
        isLoading := true }

/-- The synthesized assistant error message (App.tsx lines 144-147). -/
def assistantErrorMessage (e : Option String) : ChatMessage :=
  { role := .assistant,
    content := .str ("Sorry, I encountered an error: " ++
      (match e with | some m => m | none => "Unknown error") ++
      ". Please check the console for details.") }

/-- The settling suffix of `handleSendMessage` (App.tsx lines 112-151):
on resolution append one assistant message with the normalized response,
on rejection append one synthesized assistant error message; either way
the `finally` clears the loading flag. -/
def handleSendSettle (st : AppState) (outcome : ChatOutcome) : AppState :=
  match outcome with
  | .ok payload =>
      { st with
          chatHistory := st.chatHistory ++
            [{ role := .assistant, content := normalizeResponse payload }],
          isLoading := false }
  | .error e =>
      { st with
          chatHistory := st.chatHistory ++ [assistantErrorMessage e],
          isLoading := false }

/-- One fully settled `send`: the synchronous user-append followed by the
settling append, or a refused no-op when no session id exists yet. -/
def handleSendMessage (st : AppState) (message : String)
    (outcome : ChatOutcome) : AppState :=
  if st.sessionId = "" then st
  else handleSendSettle (handleSendStart st message) outcome

/-- Fold a finite sequence of settled sends over the state. -/
def sendFold (st : AppState) (turns : List (String × ChatOutcome)) : AppState :=
  turns.foldl (fun s turn => handleSendMessage s turn.1 turn.2) st

/-- Number of messages of a given role in a history. -/
def countRole (r : Role) (h : List ChatMessage) : Nat :=
  (h.filter (fun m => m.role == r)).length

/-- The mount sequence (App.tsx lines 23-62): the first `useEffect` calls
`loadPolicies()` — which suspends at its first `await` — and sets the
fresh session id; the second `useEffect` then runs synchronously in the
same flush and writes the initial empty collection to the Mirror; only
after that can the suspended fetch settle and `loadPolicies` continue.
The continuation therefore reads the Mirror as already overwritten with
the serialized empty list. -/
def appMount (mirror0 : Option MirrorBlob)
    (fetch : Except Unit (List ServerPolicy)) (t : Nat) (r : String) :
    AppState :=
  let st1 := { initialState mirror0 with sessionId := genSessionId t r }
  let st2 := { st1 with mirror := some (.policies []) }
  loadPolicies st2 fetch

/-- Externally visible effects of a registry mutation, in the order the
source performs them (`mirrorWrite` is the persistence `useEffect`, which
React runs after the state update commits). -/
inductive Effect where
  | gatewayDeleteCall (name : String)
  | gatewayClearCall
  | localSetPolicies (l : List PolicyDocument)
  | mirrorRemove
  | mirrorWrite (l : List PolicyDocument)
deriving DecidableEq, Repr

/-- Effect order of `handleDeletePolicy`: the source first awaits
`deletePolicyAPI(policyNameToDelete)` and only once that call has settled
(resolving or rejecting) filters the local collection, upon which the
persistence effect rewrites the Mirror. -/
def handleDeletePolicyTrace (st : AppState) (name : String)
    (outcome : Except Unit Unit) : List Effect :=
  match outcome with
  | .ok _ =>
      [.gatewayDeleteCall name,
       .localSetPolicies (st.uploadedPolicies.filter (fun p => p.name != name)),
       .mirrorWrite (st.uploadedPolicies.filter (fun p => p.name != name))]
  | .error _ =>
      [.gatewayDeleteCall name,
       .localSetPolicies (st.uploadedPolicies.filter (fun p => p.name != name)),
       .mirrorWrite (st.uploadedPolicies.filter (fun p => p.name != name))]

/-- Effect order of `clearAllPolicies`: the source first awaits
`clearAllPoliciesAPI()`; once that call has settled it sets the collection
to `[]` and removes the Mirror key, and the persistence effect then
rewrites the key with the serialized empty list. -/
def clearAllPoliciesTrace (outcome : Except Unit Unit) : List Effect :=
  match outcome with
  | .ok _ =>
      [.gatewayClearCall, .localSetPolicies [], .mirrorRemove, .mirrorWrite []]
  | .error _ =>
      [.gatewayClearCall, .localSetPolicies [], .mirrorRemove, .mirrorWrite []]

/-- Names currently displayed in the registry. -/
def registryNames (st : AppState) : List String :=
  st.uploadedPolicies.map PolicyDocument.name

/-- Rounding of `x.toFixed(2)` followed by `parseFloat`
(ChatTab.tsx line 291): round to the nearest hundredth, modelled over the
rationals with half rounding up. -/
def toFixed2 (x : Rat) : Rat :=
  (Int.floor (x * 100 + 1/2) : Rat) / 100

/-- The optimistic document built by `handleUploadClick`
(ChatTab.tsx lines 286-292) from the selected file's name and byte size,
the trimmed policy type, the draw `rand` of `Math.random()` and the
current time: `pages` is `Math.floor(Math.random() * 50) + 10` and `size`
is the byte size over 1024*1024 rounded to two decimals. -/
def uploadNewDoc (fileName : String) (fileSize : Nat) (policyType : String)
    (rand : Rat) (now : String) : PolicyDocument :=
  { name := fileName, type := policyType,
    pages := Int.floor (rand * 50) + 10,
    uploadedAt := now,
    size := toFixed2 ((fileSize : Rat) / (1024 * 1024)) }

/-- Mirror-collection synchronization: the Persistent Mirror holds exactly
the serialization of the currently displayed collection. -/
def MirrorSync (st : AppState) : Prop :=
  st.mirror = some (.policies st.uploadedPolicies)

/-- Numeric value of a decimal digit character. -/
def digitVal (c : Char) : Nat := c.toNat - 48

/-- Value of a most-significant-first decimal digit string. -/
def digitsVal (l : List Char) : Nat :=
  l.foldl (fun a c => 10 * a + digitVal c) 0

/-- A concrete one-document state used by concrete evaluations. -/
def stOneDoc : AppState :=
  { uploadedPolicies := [⟨"A.pdf", "HR", 12, "2024-01-01T00:00:00.000Z", 1⟩],
    chatHistory := [greeting], sessionId := "s", isLoading := false,
    useWebhook := false, mirror := none }

/-- Two concrete cached documents for concrete evaluations. -/
def docLeave : PolicyDocument :=
  ⟨"Leave Policy.pdf", "HR", 12, "2024-01-01T00:00:00.000Z", 1⟩

/-- A second concrete document. -/
def docRemote : PolicyDocument :=
  ⟨"Remote Work.pdf", "HR", 8, "2024-02-02T00:00:00.000Z", 2⟩

/-- A concrete state whose session id was generated at clock reading 1
with entropy substring abc. -/
def stSession : AppState :=
  { uploadedPolicies := [], chatHistory := [greeting],
    sessionId := genSessionId 1 "abc", isLoading := false,
    useWebhook := false, mirror := none }

/-- A concrete state whose Mirror is synchronized with its collection. -/
def stSynced : AppState :=
  { stOneDoc with
      mirror := some (.policies stOneDoc.uploadedPolicies) }

theorem digitChar_ne_underscore (n : Nat) : Nat.digitChar n ≠ '_' := by
  by_cases h : n < 16
  · interval_cases n <;> decide
  · have h0 : n ≠ 0 := by omega
    have h1 : n ≠ 1 := by omega
    have h2 : n ≠ 2 := by omega
    have h3 : n ≠ 3 := by omega
    have h4 : n ≠ 4 := by omega
    have h5 : n ≠ 5 := by omega
    have h6 : n ≠ 6 := by omega
    have h7 : n ≠ 7 := by omega
    have h8 : n ≠ 8 := by omega
    have h9 : n ≠ 9 := by omega
    have ha : n ≠ 10 := by omega
    have hb : n ≠ 11 := by omega
    have hc : n ≠ 12 := by omega
    have hd : n ≠ 13 := by omega
    have he : n ≠ 14 := by omega
    have hf : n ≠ 15 := by omega
    have hs : Nat.digitChar n = '*' := by
      unfold Nat.digitChar
      rw [if_neg h0, if_neg h1, if_neg h2, if_neg h3, if_neg h4, if_neg h5,
        if_neg h6, if_neg h7, if_neg h8, if_neg h9, if_neg ha, if_neg hb,
        if_neg hc, if_neg hd, if_neg he, if_neg hf]
    rw [hs]
    decide

theorem toDigitsCore_ne_underscore (b : Nat) :
    ∀ (fuel n : Nat) (acc : List Char), (∀ c ∈ acc, c ≠ '_') →
      ∀ c ∈ Nat.toDigitsCore b fuel n acc, c ≠ '_' := by
  intro fuel
  induction fuel with
  | zero =>
    intro n acc hacc c hc
    simp only [Nat.toDigitsCore] at hc
    exact hacc c hc
  | succ fuel ih =>
    intro n acc hacc c hc
    simp only [Nat.toDigitsCore] at hc
    split at hc
    · rcases List.mem_cons.mp hc with h | h
      · exact h ▸ digitChar_ne_underscore _
      · exact hacc c h
    · refine ih _ _ ?_ c hc
      intro c' hc'
      rcases List.mem_cons.mp hc' with h | h
      · exact h ▸ digitChar_ne_underscore _
      · exact hacc c' h

theorem repr_ne_underscore (n : Nat) : ∀ c ∈ (Nat.repr n).data, c ≠ '_' := by
  intro c hc
  have : (Nat.repr n).data = Nat.toDigitsCore 10 (n + 1) n [] := rfl
  rw [this] at hc
  exact toDigitsCore_ne_underscore 10 (n + 1) n [] (by simp) c hc

theorem toDigitsCore_append (b : Nat) :
    ∀ (fuel n : Nat) (acc : List Char),
      Nat.toDigitsCore b fuel n acc = Nat.toDigitsCore b fuel n [] ++ acc := by
  intro fuel
  induction fuel with
  | zero => intro n acc; simp [Nat.toDigitsCore]
  | succ fuel ih =>
    intro n acc
    simp only [Nat.toDigitsCore]
    split
    · simp
    · rw [ih (n / b) (Nat.digitChar (n % b) :: acc),
        ih (n / b) [Nat.digitChar (n % b)], List.append_assoc]
      simp

theorem toDigitsCore_fuel_irrel (b : Nat) (hb : 2 ≤ b) :
    ∀ (fuel fuel' n : Nat), n < fuel → n < fuel' →
      Nat.toDigitsCore b fuel n [] = Nat.toDigitsCore b fuel' n [] := by
  intro fuel
  induction fuel with
  | zero => intro fuel' n h; omega
  | succ fuel ih =>
    intro fuel' n hn hn'
    cases fuel' with
    | zero => omega
    | succ fuel' =>
      simp only [Nat.toDigitsCore]
      split
      · rfl
      · rename_i hdiv
        have hn0 : 0 < n := by
          rcases Nat.eq_zero_or_pos n with h0 | h0
          · exact absurd (h0 ▸ Nat.zero_div b) hdiv
          · exact h0
        have hlt : n / b < n := Nat.div_lt_self hn0 (by omega)
        rw [toDigitsCore_append b fuel, toDigitsCore_append b fuel',
          ih fuel' (n / b) (Nat.lt_of_lt_of_le hlt (Nat.lt_succ_iff.mp hn))
            (Nat.lt_of_lt_of_le hlt (Nat.lt_succ_iff.mp hn'))]

theorem digitVal_digitChar (k : Nat) (hk : k < 10) :
    digitVal (Nat.digitChar k) = k := by
  interval_cases k <;> rfl

theorem digitsVal_concat (l : List Char) (c : Char) :
    digitsVal (l ++ [c]) = 10 * digitsVal l + digitVal c := by
  simp [digitsVal, List.foldl_append]

theorem digitsVal_toDigits (n : Nat) :
    digitsVal (Nat.toDigits 10 n) = n := by
  induction n using Nat.strong_induction_on with
  | _ n ih =>
    show digitsVal (Nat.toDigitsCore 10 (n + 1) n []) = n
    simp only [Nat.toDigitsCore]
    split
    · rename_i hdiv
      have hlt : n % 10 < 10 := Nat.mod_lt _ (by omega)
      simp only [digitsVal, List.foldl_cons, List.foldl_nil, Nat.mul_zero,
        Nat.zero_add, digitVal_digitChar _ hlt]
      omega
    · rename_i hdiv
      have hge : 10 ≤ n := by omega
      have hlt : n / 10 < n := by omega
      rw [toDigitsCore_append, digitsVal_concat,
        toDigitsCore_fuel_irrel 10 (by omega) n (n / 10 + 1) (n / 10) (by omega)
          (by omega)]
      have := ih (n / 10) hlt
      simp only [Nat.toDigits] at this
      rw [this, digitVal_digitChar _ (Nat.mod_lt _ (by omega))]
      omega

theorem natRepr_injective {m n : Nat} (h : Nat.repr m = Nat.repr n) : m = n := by
  have hd : Nat.toDigits 10 m = Nat.toDigits 10 n :=
    congrArg String.data h
  calc m = digitsVal (Nat.toDigits 10 m) := (digitsVal_toDigits m).symm
    _ = digitsVal (Nat.toDigits 10 n) := by rw [hd]
    _ = n := digitsVal_toDigits n

theorem append_delim_eq :
    ∀ (a b x y : List Char), (∀ c ∈ a, c ≠ '_') → (∀ c ∈ b, c ≠ '_') →
      a ++ '_' :: x = b ++ '_' :: y → a = b ∧ x = y := by
  intro a
  induction a with
  | nil =>
    intro b x y _ hb h
    cases b with
    | nil => simpa using h
    | cons c bs =>
      simp only [List.nil_append, List.cons_append, List.cons.injEq] at h
      exact absurd h.1.symm (hb c (List.mem_cons_self c bs))
  | cons c as ih =>
    intro b x y ha hb h
    cases b with
    | nil =>
      simp only [List.cons_append, List.nil_append, List.cons.injEq] at h
      exact absurd h.1 (ha c (List.mem_cons_self c as))
    | cons c' bs =>
      simp only [List.cons_append, List.cons.injEq] at h
      obtain ⟨rfl, htail⟩ := h
      obtain ⟨h1, h2⟩ := ih bs x y
        (fun d hd => ha d (List.mem_cons_of_mem _ hd))
        (fun d hd => hb d (List.mem_cons_of_mem _ hd)) htail
      exact ⟨by rw [h1], h2⟩

theorem genSessionId_ne_of_time_ne {t t' : Nat} {r r' : String}
    (h : t ≠ t') : genSessionId t r ≠ genSessionId t' r' := by
  intro heq
  apply h
  have hdata : ("session_".data ++ (Nat.repr t).data) ++ ('_' :: r.data)
      = ("session_".data ++ (Nat.repr t').data) ++ ('_' :: r'.data) := by
    have := congrArg String.data heq
    simpa [genSessionId, String.data_append, toString] using this
  rw [List.append_assoc, List.append_assoc] at hdata
  have hmid := List.append_cancel_left hdata
  have := append_delim_eq (Nat.repr t).data (Nat.repr t').data r.data r'.data
    (repr_ne_underscore t) (repr_ne_underscore t') hmid
  exact natRepr_injective (String.ext this.1)

/-- Claim C2 is false as stated: the fixed fallback string the code
produces for a `null`/absent response is `"No response received."`, not
`"no response received"`; and the probe over `text`, `output`, `answer`
selects the first truthy field, not the first present one — for
`{text: "", output: "Y"}` the present-but-empty `text` is skipped and the
output is `"Y"`, where first-present would give `""`. -/
theorem claim_C2_counterexample :
    normalizeResponse none = .str "No response received." ∧
    normalizeResponse none ≠ .str "no response received" ∧
    normalizeResponse (some (.obj [("text", .str ""), ("output", .str "Y")]))
      = .str "Y" ∧
    normalizeResponse (some (.obj [("text", .str ""), ("output", .str "Y")]))
      ≠ .str "" := by
  have h1 : normalizeResponse none = .str "No response received." := rfl
  have h2 : normalizeResponse
      (some (.obj [("text", .str ""), ("output", .str "Y")])) = .str "Y" := rfl
  refine ⟨h1, ?_, h2, ?_⟩
  · intro h
    rw [h1] at h
    injection h with h'
    exact absurd h' (by decide)
  · intro h
    rw [h2] at h
    injection h with h'
    exact absurd h' (by decide)

/-- Claim C2, amended: a string input is returned unchanged; for
`{text: X}`, `{output: X}`, `{answer: X}` with `X` non-empty the output is
`X` — the probe runs in the order `text`, `output`, `answer` and returns
the first truthy (in particular non-empty-string) field; for `{}` the
output is the non-empty canonical serialization of the value; for `null`
or absent input the output is the fixed string `"No response received."`. -/
theorem claim_C2_amended (s X : String) (hX : X ≠ "") :
    normalizeResponse (some (.str s)) = .str s ∧
    normalizeResponse (some (.obj [("text", .str X)])) = .str X ∧
    normalizeResponse (some (.obj [("output", .str X)])) = .str X ∧
    normalizeResponse (some (.obj [("answer", .str X)])) = .str X ∧
    normalizeResponse (some (.obj [])) = .str (stringifyJson (.obj [])) ∧
    stringifyJson (.obj []) ≠ "" ∧
    normalizeResponse none = .str "No response received." ∧
    normalizeResponse (some .null) = .str "No response received." := by
  refine ⟨rfl, ?_, ?_, ?_, rfl, by decide, rfl, rfl⟩ <;>
    simp [normalizeResponse, jsGet, jsOr, jsTruthy, List.lookup, hX]

/-- Witness for the amended claim C2 at `s := "hi"`, `X := "X"`. -/
theorem claim_C2_amended_witness :
    normalizeResponse (some (.str "hi")) = .str "hi" ∧
    normalizeResponse (some (.obj [("text", .str "X")])) = .str "X" ∧
    normalizeResponse (some (.obj [("output", .str "X")])) = .str "X" ∧
    normalizeResponse (some (.obj [("answer", .str "X")])) = .str "X" ∧
    normalizeResponse (some (.obj [])) = .str (stringifyJson (.obj [])) ∧
    stringifyJson (.obj []) ≠ "" ∧
    normalizeResponse none = .str "No response received." ∧
    normalizeResponse (some .null) = .str "No response received." :=
  claim_C2_amended "hi" "X" (by decide)

/-- Claim C8 is false in its first half: an empty-string reply hits the
`typeof response.response === 'string'` branch, which precedes the
truthiness test, and is therefore returned unchanged — not replaced by the
fallback string. -/
theorem claim_C8_counterexample :
    normalizeResponse (some (.str "")) = .str "" ∧
    normalizeResponse (some (.str "")) ≠ .str "No response received." := by
  refine ⟨rfl, ?_⟩
  intro h
  rw [show normalizeResponse (some (.str "")) = .str "" from rfl] at h
  injection h with h'
  exact absurd h' (by decide)

/-- Claim C8, amended: normalization selects by truthiness for non-string
responses — a resolved payload whose response field is `0`, `false`,
`null` or absent yields an assistant message carrying the fallback string
`"No response received."` — while an empty-string response, being a
string, is returned unchanged; and a structured response whose `text`
field is the empty string is skipped by the probe, which falls through to
`output`, `answer`, or the serialization of the whole value. -/
theorem claim_C8_amended (st : AppState) (X : String) (hX : X ≠ "") :
    (handleSendSettle st (.ok (some (.num 0)))).chatHistory
      = st.chatHistory ++
        [{ role := .assistant, content := .str "No response received." }] ∧
    (handleSendSettle st (.ok (some (.bool false)))).chatHistory
      = st.chatHistory ++
        [{ role := .assistant, content := .str "No response received." }] ∧
    (handleSendSettle st (.ok (some .null))).chatHistory
      = st.chatHistory ++
        [{ role := .assistant, content := .str "No response received." }] ∧
    (handleSendSettle st (.ok none)).chatHistory
      = st.chatHistory ++
        [{ role := .assistant, content := .str "No response received." }] ∧
    (handleSendSettle st (.ok (some (.str "")))).chatHistory
      = st.chatHistory ++ [{ role := .assistant, content := .str "" }] ∧
    normalizeResponse (some (.obj [("text", .str ""), ("output", .str X)]))
      = .str X ∧
    normalizeResponse (some (.obj [("text", .str ""), ("answer", .str X)]))
      = .str X ∧
    normalizeResponse (some (.obj [("text", .str "")]))
      = .str (stringifyJson (.obj [("text", .str "")])) := by
  refine ⟨rfl, rfl, rfl, rfl, rfl, ?_, ?_, rfl⟩ <;>
    simp [normalizeResponse, jsGet, jsOr, jsTruthy, List.lookup, hX]

/-- Witness for the amended claim C8 at a concrete state and `X := "Y"`. -/
theorem claim_C8_amended_witness :
    (handleSendSettle stOneDoc (.ok (some (.num 0)))).chatHistory
      = stOneDoc.chatHistory ++
        [{ role := .assistant, content := .str "No response received." }] ∧
    (handleSendSettle stOneDoc (.ok (some (.bool false)))).chatHistory
      = stOneDoc.chatHistory ++
        [{ role := .assistant, content := .str "No response received." }] ∧
    (handleSendSettle stOneDoc (.ok (some .null))).chatHistory
      = stOneDoc.chatHistory ++
        [{ role := .assistant, content := .str "No response received." }] ∧
    (handleSendSettle stOneDoc (.ok none)).chatHistory
      = stOneDoc.chatHistory ++
        [{ role := .assistant, content := .str "No response received." }] ∧
    (handleSendSettle stOneDoc (.ok (some (.str "")))).chatHistory
      = stOneDoc.chatHistory ++
        [{ role := .assistant, content := .str "" }] ∧
    normalizeResponse (some (.obj [("text", .str ""), ("output", .str "Y")]))
      = .str "Y" ∧
    normalizeResponse (some (.obj [("text", .str ""), ("answer", .str "Y")]))
      = .str "Y" ∧
    normalizeResponse (some (.obj [("text", .str "")]))
      = .str (stringifyJson (.obj [("text", .str "")])) :=
  claim_C8_amended stOneDoc "Y" (by decide)

/-- Claim C3 is false in its ordering half: the effect trace of
`handleDeletePolicy` begins with the awaited Gateway delete call; the
local removal happens only after that call has settled, not before it is
issued. -/
theorem claim_C3_counterexample :
    handleDeletePolicyTrace stOneDoc "A.pdf" (.ok ()) =
      [.gatewayDeleteCall "A.pdf", .localSetPolicies [], .mirrorWrite []] ∧
    (handleDeletePolicyTrace stOneDoc "A.pdf" (.ok ())).head?
      = some (.gatewayDeleteCall "A.pdf") ∧
    (handleDeletePolicyTrace stOneDoc "A.pdf" (.ok ())).head?
      ≠ some (.localSetPolicies []) := by
  have h1 : handleDeletePolicyTrace stOneDoc "A.pdf" (.ok ()) =
      [.gatewayDeleteCall "A.pdf", .localSetPolicies [], .mirrorWrite []] := rfl
  refine ⟨h1, by rw [h1]; rfl, ?_⟩
  rw [h1]
  intro h
  simp only [List.head?] at h
  injection h with h'
  exact Effect.noConfusion h'

/-- Claim C3, amended: `delete(name)` issues the Gateway delete call
first and removes the matching record from local state when that call
settles; whether it succeeds or fails, local state ends with exactly the
records whose name differs from `name` — the matching record removed and
no other record affected. -/
theorem claim_C3_amended (st : AppState) (name : String)
    (outcome : Except Unit Unit) :
    handleDeletePolicyTrace st name outcome =
      [.gatewayDeleteCall name,
       .localSetPolicies (st.uploadedPolicies.filter (fun p => p.name != name)),
       .mirrorWrite (st.uploadedPolicies.filter (fun p => p.name != name))] ∧
    (handleDeletePolicy st name outcome).uploadedPolicies
      = st.uploadedPolicies.filter (fun p => p.name != name) ∧
    ∀ p, p ∈ (handleDeletePolicy st name outcome).uploadedPolicies ↔
      (p ∈ st.uploadedPolicies ∧ p.name ≠ name) := by
  cases outcome <;>
    · refine ⟨rfl, rfl, ?_⟩
      intro p
      simp [handleDeletePolicy, setPoliciesAndMirror, List.mem_filter]

/-- Claim C4 is false in its ordering half: the effect trace of
`clearAllPolicies` begins with the awaited Gateway bulk-clear call; local
state is emptied and the Mirror dropped only after that call has settled,
not before it is issued. -/
theorem claim_C4_counterexample :
    clearAllPoliciesTrace (.ok ()) =
      [.gatewayClearCall, .localSetPolicies [], .mirrorRemove,
        .mirrorWrite []] ∧
    (clearAllPoliciesTrace (.ok ())).head? = some .gatewayClearCall ∧
    (clearAllPoliciesTrace (.ok ())).head? ≠ some (.localSetPolicies []) ∧
    (clearAllPoliciesTrace (.ok ())).head? ≠ some .mirrorRemove := by
  have h1 : clearAllPoliciesTrace (.ok ()) =
      [.gatewayClearCall, .localSetPolicies [], .mirrorRemove,
        .mirrorWrite []] := rfl
  refine ⟨h1, by rw [h1]; rfl, ?_, ?_⟩ <;>
    · rw [h1]
      intro h
      simp only [List.head?] at h
      injection h with h'
      exact Effect.noConfusion h'

/-- Claim C4, amended: `clearAll()` issues the Gateway bulk-clear call
first and, once it settles — resolving or rejecting — empties the local
collection and drops the Mirror key (which the persistence effect then
rewrites with the serialized empty list); in either outcome the visible
collection ends empty and the Mirror ends with no cached documents, and a
failure never restores the cleared documents. -/
theorem claim_C4_amended (st : AppState) (outcome : Except Unit Unit) :
    clearAllPoliciesTrace outcome =
      [.gatewayClearCall, .localSetPolicies [], .mirrorRemove,
        .mirrorWrite []] ∧
    (clearAllPolicies st outcome).uploadedPolicies = [] ∧
    (clearAllPolicies st outcome).mirror = some (.policies []) := by
  cases outcome <;> exact ⟨rfl, rfl, rfl⟩

theorem countRole_append (r : Role) (h1 h2 : List ChatMessage) :
    countRole r (h1 ++ h2) = countRole r h1 + countRole r h2 := by
  simp [countRole, List.filter_append]

theorem handleSendMessage_sessionId (st : AppState) (m : String)
    (o : ChatOutcome) : (handleSendMessage st m o).sessionId = st.sessionId := by
  by_cases h : st.sessionId = ""
  · simp [handleSendMessage, h]
  · cases o <;>
      simp [handleSendMessage, handleSendSettle, handleSendStart, h]

theorem countRole_handleSendMessage (st : AppState) (m : String)
    (o : ChatOutcome) (hs : st.sessionId ≠ "") :
    countRole .user (handleSendMessage st m o).chatHistory
      = countRole .user st.chatHistory + 1 ∧
    countRole .assistant (handleSendMessage st m o).chatHistory
      = countRole .assistant st.chatHistory + 1 := by
  cases o <;>
    simp [handleSendMessage, handleSendSettle, handleSendStart, hs,
      countRole_append, countRole, assistantErrorMessage]

theorem sendFold_counts (turns : List (String × ChatOutcome)) :
    ∀ st : AppState, st.sessionId ≠ "" →
      countRole .user (sendFold st turns).chatHistory
        = countRole .user st.chatHistory + turns.length ∧
      countRole .assistant (sendFold st turns).chatHistory
        = countRole .assistant st.chatHistory + turns.length := by
  induction turns with
  | nil => intro st hs; simp [sendFold]
  | cons turn rest ih =>
    intro st hs
    have hstep : sendFold st (turn :: rest)
        = sendFold (handleSendMessage st turn.1 turn.2) rest := rfl
    have hs' : (handleSendMessage st turn.1 turn.2).sessionId ≠ "" := by
      rw [handleSendMessage_sessionId]; exact hs
    have h1 := countRole_handleSendMessage st turn.1 turn.2 hs
    have h2 := ih (handleSendMessage st turn.1 turn.2) hs'
    rw [hstep]
    constructor
    · rw [h2.1, h1.1, List.length_cons]; omega
    · rw [h2.2, h1.2, List.length_cons]; omega

/-- Claim C1: with a non-empty session id, a send appends exactly one
user message synchronously, exactly one assistant message at settlement
whatever the outcome (resolution with normalized text or rejection with
synthesized error text), and after any finite sequence of settled sends
the number of user and assistant messages have grown by the same amount —
no turn is dropped. -/
theorem claim_C1 (st : AppState) (hs : st.sessionId ≠ "") (message : String)
    (turns : List (String × ChatOutcome)) :
    (handleSendStart st message).chatHistory
      = st.chatHistory ++ [{ role := .user, content := .str message }] ∧
    (∀ outcome : ChatOutcome,
      countRole .user (handleSendMessage st message outcome).chatHistory
        = countRole .user st.chatHistory + 1 ∧
      countRole .assistant (handleSendMessage st message outcome).chatHistory
        = countRole .assistant st.chatHistory + 1) ∧
    countRole .user (sendFold st turns).chatHistory
      = countRole .user st.chatHistory + turns.length ∧
    countRole .assistant (sendFold st turns).chatHistory
      = countRole .assistant st.chatHistory + turns.length := by
  refine ⟨?_, ?_, (sendFold_counts turns st hs).1, (sendFold_counts turns st hs).2⟩
  · simp [handleSendStart, hs]
  · intro outcome
    exact countRole_handleSendMessage st message outcome hs

/-- Witness for claim C1 at a concrete state and a one-send sequence. -/
theorem claim_C1_witness :
    stOneDoc.sessionId ≠ "" ∧
    ((handleSendStart stOneDoc "hi").chatHistory
      = stOneDoc.chatHistory ++ [{ role := .user, content := .str "hi" }] ∧
    (∀ outcome : ChatOutcome,
      countRole .user (handleSendMessage stOneDoc "hi" outcome).chatHistory
        = countRole .user stOneDoc.chatHistory + 1 ∧
      countRole .assistant
          (handleSendMessage stOneDoc "hi" outcome).chatHistory
        = countRole .assistant stOneDoc.chatHistory + 1) ∧
    countRole .user
        (sendFold stOneDoc [("hi", .ok (some (.str "ok")))]).chatHistory
      = countRole .user stOneDoc.chatHistory + 1 ∧
    countRole .assistant
        (sendFold stOneDoc [("hi", .ok (some (.str "ok")))]).chatHistory
      = countRole .assistant stOneDoc.chatHistory + 1) :=
  ⟨by decide, claim_C1 stOneDoc (by decide) "hi" [("hi", .ok (some (.str "ok")))]⟩

/-- Claim C5 is false in its strict-inequality half: the new session id is
built from `Date.now()` and a `Math.random()` substring with no freshness
check, so a clear that draws the same millisecond reading and the same
entropy substring as the current id reproduces it — old = new. -/
theorem claim_C5_counterexample :
    (clearChat stSession 1 "abc").sessionId = stSession.sessionId := rfl

/-- Claim C5, amended: provided the millisecond clock reading drawn at the
clear differs from the one that produced the current session id (the
almost-sure case the spec's overwhelming-probability language describes),
the new session id differs from the old; the message sequence is reset to
exactly the fixed greeting; and among the application's operations only
`clearChat` (besides mount initialization) changes the session id. -/
theorem claim_C5_amended (st : AppState) (t₀ t : Nat) (r₀ r : String)
    (hsid : st.sessionId = genSessionId t₀ r₀) (ht : t ≠ t₀) :
    (clearChat st t r).sessionId ≠ st.sessionId ∧
    (clearChat st t r).chatHistory = [greeting] ∧
    (∀ m o, (handleSendMessage st m o).sessionId = st.sessionId) ∧
    (∀ n o, (handleDeletePolicy st n o).sessionId = st.sessionId) ∧
    (∀ o, (clearAllPolicies st o).sessionId = st.sessionId) ∧
    (∀ f, (refreshPolicies st f).sessionId = st.sessionId) ∧
    (∀ f, (loadPolicies st f).sessionId = st.sessionId) ∧
    (∀ d, (handleUpload st d).sessionId = st.sessionId) := by
  refine ⟨?_, rfl, ?_, ?_, ?_, ?_, ?_, ?_⟩
  · show genSessionId t r ≠ st.sessionId
    rw [hsid]
    exact genSessionId_ne_of_time_ne ht
  · intro m o; exact handleSendMessage_sessionId st m o
  · intro n o; cases o <;> rfl
  · intro o; cases o <;> rfl
  · intro f; cases f <;> rfl
  · intro f
    cases f with
    | ok ps => rfl
    | error e =>
      show (loadPolicies st (.error e)).sessionId = st.sessionId
      unfold loadPolicies
      rcases st.mirror with _ | blob
      · rfl
      · cases blob <;> rfl
  · intro d; rfl

/-- Witness for the amended claim C5: the clock advanced from 1 to 2. -/
theorem claim_C5_amended_witness :
    stSession.sessionId = genSessionId 1 "abc" ∧ (2 : Nat) ≠ 1 ∧
    ((clearChat stSession 2 "abc").sessionId ≠ stSession.sessionId ∧
    (clearChat stSession 2 "abc").chatHistory = [greeting] ∧
    (∀ m o, (handleSendMessage stSession m o).sessionId
      = stSession.sessionId) ∧
    (∀ n o, (handleDeletePolicy stSession n o).sessionId
      = stSession.sessionId) ∧
    (∀ o, (clearAllPolicies stSession o).sessionId = stSession.sessionId) ∧
    (∀ f, (refreshPolicies stSession f).sessionId = stSession.sessionId) ∧
    (∀ f, (loadPolicies stSession f).sessionId = stSession.sessionId) ∧
    (∀ d, (handleUpload stSession d).sessionId = stSession.sessionId)) :=
  ⟨rfl, by decide, claim_C5_amended stSession 1 2 "abc" "abc" rfl (by decide)⟩

/-- Claim C6 names a recovery the code cannot perform: the second mount
effect rewrites the Mirror key with the serialization of the initial
empty collection synchronously, before the suspended `getPolicies` fetch
can settle, so `loadPolicies`'s fallback read never sees the
previously-cached entry — with the Gateway unreachable and two documents
cached, the registry ends empty, not with the two documents, and the
cached entry has been overwritten with the empty list. -/
theorem claim_C6_bug :
    (appMount (some (.policies [docLeave, docRemote])) (.error ()) 1 "abc").uploadedPolicies = [] ∧
    (appMount (some (.policies [docLeave, docRemote])) (.error ()) 1 "abc").mirror = some (.policies []) ∧
    (appMount (some (.policies [docLeave, docRemote])) (.error ()) 1 "abc").uploadedPolicies ≠ [docLeave, docRemote] := by
  refine ⟨rfl, rfl, ?_⟩
  intro h
  rw [show (appMount (some (.policies [docLeave, docRemote])) (.error ()) 1
      "abc").uploadedPolicies = [] from rfl] at h
  exact List.noConfusion h

/-- Claim C7 is false as stated: `recordOptimisticUpload` prepends without
any uniqueness check, so uploading a document whose name is already
displayed (for example the same file twice before any refresh) leaves two
records with the same name in the collection. -/
theorem claim_C7_counterexample :
    ¬ (registryNames
        (handleUpload (handleUpload (initialState none) docLeave)
          docLeave)).Nodup := by
  rw [show registryNames
      (handleUpload (handleUpload (initialState none) docLeave) docLeave)
    = ["Leave Policy.pdf", "Leave Policy.pdf"] from rfl]
  decide

/-- Claim C7, amended: name-uniqueness is preserved by delete and by
bulk-clear, holds after a load or refresh whose server payload carries
pairwise-distinct names, and is preserved by an optimistic upload exactly
when the uploaded name is not already displayed; it is not maintained
unconditionally — a duplicate optimistic upload breaks it until the next
successful refresh replaces the collection. -/
theorem claim_C7_amended (st : AppState) (d : PolicyDocument) (name : String)
    (o : Except Unit Unit) (ps : List ServerPolicy) :
    ((registryNames st).Nodup → d.name ∉ registryNames st →
      (registryNames (handleUpload st d)).Nodup) ∧
    ((registryNames st).Nodup →
      (registryNames (handleDeletePolicy st name o)).Nodup) ∧
    ((ps.map ServerPolicy.name).Nodup →
      (registryNames (refreshPolicies st (.ok ps))).Nodup) ∧
    ((ps.map ServerPolicy.name).Nodup →
      (registryNames (loadPolicies st (.ok ps))).Nodup) ∧
    (registryNames (clearAllPolicies st o)).Nodup := by
  have hmapped : ∀ qs : List ServerPolicy,
      (qs.map mapServerPolicy).map PolicyDocument.name
        = qs.map ServerPolicy.name := by
    intro qs
    rw [List.map_map]
    rfl
  refine ⟨?_, ?_, ?_, ?_, ?_⟩
  · intro hnd hni
    simpa [registryNames, handleUpload, setPoliciesAndMirror,
      List.nodup_cons] using And.intro hni hnd
  · intro hnd
    have hsub : ((st.uploadedPolicies.filter
          (fun p => p.name != name)).map PolicyDocument.name).Sublist
        (st.uploadedPolicies.map PolicyDocument.name) :=
      (List.filter_sublist _).map _
    cases o <;>
      exact hnd.sublist hsub
  · intro hnd
    show ((ps.map mapServerPolicy).map PolicyDocument.name).Nodup
    rw [hmapped]
    exact hnd
  · intro hnd
    show ((ps.map mapServerPolicy).map PolicyDocument.name).Nodup
    rw [hmapped]
    exact hnd
  · cases o <;> exact List.nodup_nil

/-- Witness for the amended claim C7 at concrete inputs. -/
theorem claim_C7_amended_witness :
    (registryNames stOneDoc).Nodup ∧
    docRemote.name ∉ registryNames stOneDoc ∧
    (registryNames (handleUpload stOneDoc docRemote)).Nodup ∧
    (registryNames (handleDeletePolicy stOneDoc "A.pdf" (.ok ()))).Nodup ∧
    (registryNames (clearAllPolicies stOneDoc (.error ()))).Nodup := by
  have hth := claim_C7_amended stOneDoc docRemote "A.pdf" (.ok ()) []
  have h1 : (registryNames stOneDoc).Nodup := by
    rw [show registryNames stOneDoc = ["A.pdf"] from rfl]
    decide
  have h2 : docRemote.name ∉ registryNames stOneDoc := by
    rw [show registryNames stOneDoc = ["A.pdf"] from rfl]
    decide
  exact ⟨h1, h2, hth.1 h1 h2, hth.2.1 h1,
    (claim_C7_amended stOneDoc docRemote "A.pdf" (.error ()) []).2.2.2.2⟩

/-- Claim C9: the optimistic record built on an accepted upload has an
estimated page count `Math.floor(Math.random() * 50) + 10` lying in
[10, 59] for every draw in [0, 1), independent of the file's name or byte
size, and its size — the byte size converted to MiB and rounded to two
decimal places — is non-negative. -/
theorem claim_C9 (fileName : String) (fileSize : Nat) (policyType : String)
    (rand : Rat) (now : String) (h0 : 0 ≤ rand) (h1 : rand < 1) :
    10 ≤ (uploadNewDoc fileName fileSize policyType rand now).pages ∧
    (uploadNewDoc fileName fileSize policyType rand now).pages ≤ 59 ∧
    0 ≤ (uploadNewDoc fileName fileSize policyType rand now).size ∧
    ∀ (fn2 : String) (fs2 : Nat),
      (uploadNewDoc fn2 fs2 policyType rand now).pages
        = (uploadNewDoc fileName fileSize policyType rand now).pages := by
  refine ⟨?_, ?_, ?_, fun fn2 fs2 => rfl⟩
  · show 10 ≤ Int.floor (rand * 50) + 10
    have : (0 : Int) ≤ Int.floor (rand * 50) :=
      Int.floor_nonneg.mpr (by positivity)
    omega
  · show Int.floor (rand * 50) + 10 ≤ 59
    have h50 : rand * 50 < 50 := by nlinarith
    have : Int.floor (rand * 50) < 50 := Int.floor_lt.mpr (by
      push_cast
      exact h50)
    omega
  · show 0 ≤ toFixed2 ((fileSize : Rat) / (1024 * 1024))
    have hx : (0 : Rat) ≤ (fileSize : Rat) / (1024 * 1024) := by positivity
    have hfl : (0 : Int) ≤ Int.floor ((fileSize : Rat) / (1024 * 1024) * 100
        + 1 / 2) :=
      Int.floor_nonneg.mpr (by positivity)
    unfold toFixed2
    positivity

/-- Witness for claim C9 at the draw one half and a 1 MiB file. -/
theorem claim_C9_witness :
    (0 : Rat) ≤ 1 / 2 ∧ (1 : Rat) / 2 < 1 ∧
    (10 ≤ (uploadNewDoc "Leave Policy.pdf" 1048576 "HR" (1 / 2) "now").pages ∧
    (uploadNewDoc "Leave Policy.pdf" 1048576 "HR" (1 / 2) "now").pages ≤ 59 ∧
    0 ≤ (uploadNewDoc "Leave Policy.pdf" 1048576 "HR" (1 / 2) "now").size ∧
    ∀ (fn2 : String) (fs2 : Nat),
      (uploadNewDoc fn2 fs2 "HR" (1 / 2) "now").pages
        = (uploadNewDoc "Leave Policy.pdf" 1048576 "HR" (1 / 2) "now").pages) :=
  ⟨by norm_num, by norm_num,
    claim_C9 "Leave Policy.pdf" 1048576 "HR" (1 / 2) "now" (by norm_num)
      (by norm_num)⟩

/-- Claim C10: the Persistent Mirror is rewritten with the serialization
of the collection after every collection change — mount (where the write
of the initial empty state lands before the suspended load's fallback read
can run, as the second conjunct records for a failing fetch), optimistic
upload, delete, refresh, load and bulk-clear — and after `clearAll` the
key holds the serialization of the empty list rather than being absent. -/
theorem claim_C10 (st : AppState) (hsync : MirrorSync st)
    (mirror0 : Option MirrorBlob) (fetch : Except Unit (List ServerPolicy))
    (t : Nat) (r : String) (d : PolicyDocument) (name : String)
    (o : Except Unit Unit) :
    MirrorSync (appMount mirror0 fetch t r) ∧
    (appMount mirror0 (.error ()) t r).mirror = some (.policies []) ∧
    MirrorSync (handleUpload st d) ∧
    MirrorSync (handleDeletePolicy st name o) ∧
    MirrorSync (refreshPolicies st fetch) ∧
    MirrorSync (loadPolicies st fetch) ∧
    MirrorSync (clearAllPolicies st o) ∧
    (clearAllPolicies st o).mirror = some (.policies []) ∧
    (clearAllPolicies st o).mirror ≠ none := by
  refine ⟨?_, rfl, rfl, ?_, ?_, ?_, ?_, ?_, ?_⟩
  · cases fetch with
    | ok ps => rfl
    | error e => rfl
  · cases o <;> rfl
  · cases fetch with
    | ok ps => rfl
    | error e => exact hsync
  · cases fetch with
    | ok ps => rfl
    | error e =>
      show MirrorSync (loadPolicies st (.error e))
      unfold MirrorSync loadPolicies
      rcases st.mirror with _ | blob
      · exact hsync
      · cases blob with
        | policies l => rfl
        | corrupt => exact hsync
  · cases o <;> rfl
  · cases o <;> rfl
  · cases o <;> exact fun h => Option.noConfusion h

/-- Witness for claim C10 at a concrete synchronized state. -/
theorem claim_C10_witness :
    MirrorSync stSynced ∧
    (MirrorSync (appMount none (.ok []) 1 "abc") ∧
    (appMount none (.error ()) 1 "abc").mirror = some (.policies []) ∧
    MirrorSync (handleUpload stSynced docRemote) ∧
    MirrorSync (handleDeletePolicy stSynced "A.pdf" (.ok ())) ∧
    MirrorSync (refreshPolicies stSynced (.ok [])) ∧
    MirrorSync (loadPolicies stSynced (.ok [])) ∧
    MirrorSync (clearAllPolicies stSynced (.ok ())) ∧
    (clearAllPolicies stSynced (.ok ())).mirror = some (.policies []) ∧
    (clearAllPolicies stSynced (.ok ())).mirror ≠ none) :=
  ⟨rfl, claim_C10 stSynced rfl none (.ok []) 1 "abc" docRemote "A.pdf" (.ok ())⟩
